import Mathlib

/-! Echo server of `examples/echo-server/server.c`.

A shallow embedding of the two blocks that `main` registers:

* the listener block `^(xpc_object_t peer) { ... }`, run once per accepted connection;
* the peer block `^(xpc_object_t event) { ... }`, run once per event of that connection,
  with `peer` captured from the enclosing listener block.

Both blocks return `void` and act only through library calls, so each is embedded as
the list of calls it makes, in program order.  The XPC value space (`xpc/xpc.h`) is
not part of the repository; it is modelled by the inductive type `xpc_object_t` whose
constructors follow the `XPC_TYPE_*` constants of that header.
-/

namespace EchoServer

/-! ## XPC objects -/

/-- The type tags `XPC_TYPE_*` returned by `xpc_get_type`. -/
inductive xpc_type_t
  | XPC_TYPE_CONNECTION
  | XPC_TYPE_ENDPOINT
  | XPC_TYPE_NULL
  | XPC_TYPE_BOOL
  | XPC_TYPE_INT64
  | XPC_TYPE_UINT64
  | XPC_TYPE_DOUBLE
  | XPC_TYPE_DATE
  | XPC_TYPE_DATA
  | XPC_TYPE_STRING
  | XPC_TYPE_UUID
  | XPC_TYPE_FD
  | XPC_TYPE_SHMEM
  | XPC_TYPE_ARRAY
  | XPC_TYPE_DICTIONARY
  | XPC_TYPE_ERROR
  | XPC_TYPE_ACTIVITY
  deriving DecidableEq, Repr

export xpc_type_t (XPC_TYPE_CONNECTION XPC_TYPE_ENDPOINT XPC_TYPE_NULL XPC_TYPE_BOOL
  XPC_TYPE_INT64 XPC_TYPE_UINT64 XPC_TYPE_DOUBLE XPC_TYPE_DATE XPC_TYPE_DATA
  XPC_TYPE_STRING XPC_TYPE_UUID XPC_TYPE_FD XPC_TYPE_SHMEM XPC_TYPE_ARRAY
  XPC_TYPE_DICTIONARY XPC_TYPE_ERROR XPC_TYPE_ACTIVITY)

/-- A connection handle.  Two handles are the same connection exactly when their
identifiers agree (pointer identity in the C program). -/
structure xpc_connection_t where
  id : Nat
  deriving DecidableEq, Repr

/-- The three error objects the library defines; each is a process-wide singleton. -/
inductive xpc_error_t
  | connection_interrupted
  | connection_invalid
  | termination_imminent
  deriving DecidableEq, Repr

/-- An XPC object: the values the runtime can hand to an event handler.  Payloads of
the scalar kinds are kept abstract enough to be compared (`double` by its bit pattern,
`data` and `uuid` by their bytes); arrays and dictionaries nest arbitrarily. -/
inductive xpc_object_t
  | connection (c : xpc_connection_t)
  | endpoint (port : Nat)
  | null
  | bool (b : Bool)
  | int64 (v : Int)
  | uint64 (v : Nat)
  | double (bits : Nat)
  | date (nanoseconds : Int)
  | data (bytes : List Nat)
  | string (s : String)
  | uuid (bytes : List Nat)
  | fd (descriptor : Int)
  | shmem (region : Nat)
  | array (items : List xpc_object_t)
  | dictionary (entries : List (String × xpc_object_t))
  | error (e : xpc_error_t)
  | activity (ident : Nat)

/-- The sentinel `XPC_ERROR_CONNECTION_INVALID`. -/
def XPC_ERROR_CONNECTION_INVALID : xpc_object_t :=
  .error .connection_invalid

/-- The sentinel `XPC_ERROR_CONNECTION_INTERRUPTED`. -/
def XPC_ERROR_CONNECTION_INTERRUPTED : xpc_object_t :=
  .error .connection_interrupted

/-- The sentinel `XPC_ERROR_TERMINATION_IMMINENT`. -/
def XPC_ERROR_TERMINATION_IMMINENT : xpc_object_t :=
  .error .termination_imminent

/-- The library function `xpc_get_type`: outer type tag of an object. -/
def xpc_get_type : xpc_object_t → xpc_type_t
  | .connection _ => XPC_TYPE_CONNECTION
  | .endpoint _ => XPC_TYPE_ENDPOINT
  | .null => XPC_TYPE_NULL
  | .bool _ => XPC_TYPE_BOOL
  | .int64 _ => XPC_TYPE_INT64
  | .uint64 _ => XPC_TYPE_UINT64
  | .double _ => XPC_TYPE_DOUBLE
  | .date _ => XPC_TYPE_DATE
  | .data _ => XPC_TYPE_DATA
  | .string _ => XPC_TYPE_STRING
  | .uuid _ => XPC_TYPE_UUID
  | .fd _ => XPC_TYPE_FD
  | .shmem _ => XPC_TYPE_SHMEM
  | .array _ => XPC_TYPE_ARRAY
  | .dictionary _ => XPC_TYPE_DICTIONARY
  | .error _ => XPC_TYPE_ERROR
  | .activity _ => XPC_TYPE_ACTIVITY

/-- The C test `event == XPC_ERROR_CONNECTION_INVALID`.  The sentinel is a singleton,
so comparing pointers is comparing with the one value `.error .connection_invalid`. -/
instance decEqConnectionInvalid (event : xpc_object_t) :
    Decidable (event = XPC_ERROR_CONNECTION_INVALID) :=
  match event with
  | .error .connection_invalid => isTrue rfl
  | .error .connection_interrupted => isFalse (by simp [XPC_ERROR_CONNECTION_INVALID])
  | .error .termination_imminent => isFalse (by simp [XPC_ERROR_CONNECTION_INVALID])
  | .connection _ => isFalse (by simp [XPC_ERROR_CONNECTION_INVALID])
  | .endpoint _ => isFalse (by simp [XPC_ERROR_CONNECTION_INVALID])
  | .null => isFalse (by simp [XPC_ERROR_CONNECTION_INVALID])
  | .bool _ => isFalse (by simp [XPC_ERROR_CONNECTION_INVALID])
  | .int64 _ => isFalse (by simp [XPC_ERROR_CONNECTION_INVALID])
  | .uint64 _ => isFalse (by simp [XPC_ERROR_CONNECTION_INVALID])
  | .double _ => isFalse (by simp [XPC_ERROR_CONNECTION_INVALID])
  | .date _ => isFalse (by simp [XPC_ERROR_CONNECTION_INVALID])
  | .data _ => isFalse (by simp [XPC_ERROR_CONNECTION_INVALID])
  | .string _ => isFalse (by simp [XPC_ERROR_CONNECTION_INVALID])
  | .uuid _ => isFalse (by simp [XPC_ERROR_CONNECTION_INVALID])
  | .fd _ => isFalse (by simp [XPC_ERROR_CONNECTION_INVALID])
  | .shmem _ => isFalse (by simp [XPC_ERROR_CONNECTION_INVALID])
  | .array _ => isFalse (by simp [XPC_ERROR_CONNECTION_INVALID])
  | .dictionary _ => isFalse (by simp [XPC_ERROR_CONNECTION_INVALID])
  | .activity _ => isFalse (by simp [XPC_ERROR_CONNECTION_INVALID])

/-! ## Library calls made by the blocks -/

/-- A call with an effect outside the program, as made by one of the two blocks.
An event handler is a function from the delivered object to the calls it makes. -/
inductive Effect
  | printf (text : String)
  | xpc_connection_send_message (connection : xpc_connection_t) (message : xpc_object_t)
  | xpc_connection_set_event_handler (connection : xpc_connection_t)
      (handler : xpc_object_t → List Effect)
  | xpc_connection_resume (connection : xpc_connection_t)

/-! ## The two blocks of `main` -/

/-- The inner block `^(xpc_object_t event) { ... }` installed on `peer` (captured):
sentinel test first, then the type test, then the echo. -/
def peer_event_handler (peer : xpc_connection_t) (event : xpc_object_t) : List Effect :=
  if event = XPC_ERROR_CONNECTION_INVALID then
    [Effect.printf "Connection closed by remote end\n"]
  else if xpc_get_type event ≠ XPC_TYPE_DICTIONARY then
    [Effect.printf "Didn't receive a dictionary\n"]
  else
    [Effect.xpc_connection_send_message peer event]

/-- The outer block `^(xpc_object_t peer) { ... }` installed on the listener: it is run
with each accepted connection, which it passes to `xpc_connection_set_event_handler`
and `xpc_connection_resume`, the parameter therefore has the connection type here. -/
def listener_event_handler (peer : xpc_connection_t) : List Effect :=
  [Effect.xpc_connection_set_event_handler peer (peer_event_handler peer),
   Effect.xpc_connection_resume peer]

/-! ## The event loop

`dispatch_main()` never returns: the runtime calls the installed blocks one at a time,
each to completion.  A run is embedded as the finite list of deliveries made so far,
threaded through the trace of calls. -/

/-- One invocation of a block by the runtime: the listener block with a newly accepted
connection, or the block installed on `peer` (the one that captured `peer`) with an
event that arrived on `peer`. -/
inductive Delivery
  | new_connection (peer : xpc_connection_t)
  | peer_event (peer : xpc_connection_t) (event : xpc_object_t)

/-- The calls made by the block that a delivery invokes. -/
def Delivery.run : Delivery → List Effect
  | .new_connection peer => listener_event_handler peer
  | .peer_event peer event => peer_event_handler peer event

/-- One turn of the loop: the invoked block appends its calls to the trace. -/
def deliver (trace : List Effect) (d : Delivery) : List Effect :=
  trace ++ d.run

/-- The loop continued from a given trace. -/
def dispatch_from (trace : List Effect) (ds : List Delivery) : List Effect :=
  ds.foldl deliver trace

/-- The loop of `dispatch_main()` from process start. -/
def dispatch_main (ds : List Delivery) : List Effect :=
  dispatch_from [] ds

/-- The trace of one peer: `events` arrive, in this order, on `peer` alone. -/
def handle_events (peer : xpc_connection_t) (events : List xpc_object_t) : List Effect :=
  dispatch_main (events.map (Delivery.peer_event peer))

/-- The trace of the listener alone: `peers` are accepted in this order. -/
def accept_peers (peers : List xpc_connection_t) : List Effect :=
  dispatch_main (peers.map Delivery.new_connection)

/-! ## Observations on runs and traces -/

/-- The messages passed to `xpc_connection_send_message` for connection `P`, in order. -/
def sent_to (P : xpc_connection_t) : List Effect → List xpc_object_t
  | [] => []
  | Effect.xpc_connection_send_message c m :: rest =>
      if c = P then m :: sent_to P rest else sent_to P rest
  | _ :: rest => sent_to P rest

/-- The events that arrived on connection `P` during a run, in order. -/
def received_from (P : xpc_connection_t) : List Delivery → List xpc_object_t
  | [] => []
  | Delivery.peer_event c e :: rest =>
      if c = P then e :: received_from P rest else received_from P rest
  | _ :: rest => received_from P rest

/-- The dictionaries among a list of events, in order. -/
def dictionaries (events : List xpc_object_t) : List xpc_object_t :=
  events.filter (fun e => decide (xpc_get_type e = XPC_TYPE_DICTIONARY))

/-- The text printed when the sentinel arrives. -/
def closed_notice : Effect :=
  Effect.printf "Connection closed by remote end\n"

/-- The text printed when an event is not a dictionary. -/
def shape_notice : Effect :=
  Effect.printf "Didn't receive a dictionary\n"

/-! ## The runtime that holds the installed blocks

The loop above takes for granted that an event on `peer` reaches the block that
captured `peer`.  In the program that binding is made by the listener block, through
`xpc_connection_set_event_handler` and `xpc_connection_resume`.  The runtime below
interprets these two calls: it keeps the blocks installed so far and the connections
resumed so far, and an event on a connection runs whatever block is installed on it,
if it has been resumed.  A run starts after `main` has installed the listener block
on the listener and resumed it. -/

/-- The state of the runtime: the blocks installed by `xpc_connection_set_event_handler`
(latest first), the connections resumed by `xpc_connection_resume` (latest first), and
every call made so far. -/
structure Runtime where
  handlers : List (xpc_connection_t × (xpc_object_t → List Effect))
  resumed : List xpc_connection_t
  trace : List Effect

/-- The runtime before any connection has arrived. -/
def Runtime.start : Runtime :=
  Runtime.mk [] [] []

/-- The block last installed on connection `c` among `handlers`, if any. -/
def lookup_handler (c : xpc_connection_t) :
    List (xpc_connection_t × (xpc_object_t → List Effect)) →
      Option (xpc_object_t → List Effect)
  | [] => none
  | (c2, h) :: rest => if c2 = c then some h else lookup_handler c rest

/-- The block currently installed on connection `c`, if any. -/
def Runtime.handler_of (rt : Runtime) (c : xpc_connection_t) :
    Option (xpc_object_t → List Effect) :=
  lookup_handler c rt.handlers

/-- The runtime after one call of a block: the call is recorded,
`xpc_connection_set_event_handler` installs the block on the connection and
`xpc_connection_resume` resumes the connection. -/
def Runtime.perform (rt : Runtime) (call : Effect) : Runtime :=
  match call with
  | Effect.printf _ => Runtime.mk rt.handlers rt.resumed (rt.trace ++ [call])
  | Effect.xpc_connection_send_message _ _ =>
      Runtime.mk rt.handlers rt.resumed (rt.trace ++ [call])
  | Effect.xpc_connection_set_event_handler c h =>
      Runtime.mk ((c, h) :: rt.handlers) rt.resumed (rt.trace ++ [call])
  | Effect.xpc_connection_resume c =>
      Runtime.mk rt.handlers (c :: rt.resumed) (rt.trace ++ [call])

/-- The runtime after the calls of one block invocation, in program order. -/
def Runtime.perform_all (rt : Runtime) (calls : List Effect) : Runtime :=
  calls.foldl Runtime.perform rt

/-- One arrival at the runtime.  A new connection is handed to the listener block.
An event on `peer` is handed to the block installed on `peer`, provided `peer` has
been resumed and has a block; otherwise nothing is invoked. -/
def Runtime.step (rt : Runtime) : Delivery → Runtime
  | Delivery.new_connection peer => rt.perform_all (listener_event_handler peer)
  | Delivery.peer_event peer event =>
      if peer ∈ rt.resumed then
        match rt.handler_of peer with
        | some handler => rt.perform_all (handler event)
        | none => rt
      else rt

/-- The runtime continued from a given state. -/
def Runtime.run_from (rt : Runtime) (ds : List Delivery) : Runtime :=
  ds.foldl Runtime.step rt

/-- The whole system from process start: arrivals `ds`, in this order. -/
def system_run (ds : List Delivery) : Runtime :=
  Runtime.start.run_from ds

/-- The arrivals that reach a block, given the connections resumed so far: every new
connection, and every event on a connection that was accepted before the event. -/
def deliverable (resumed : List xpc_connection_t) : List Delivery → List Delivery
  | [] => []
  | Delivery.new_connection c :: rest =>
      Delivery.new_connection c :: deliverable (c :: resumed) rest
  | Delivery.peer_event c e :: rest =>
      if c ∈ resumed then Delivery.peer_event c e :: deliverable resumed rest
      else deliverable resumed rest

/-- Whether every event arrives on a connection accepted earlier in the run (or
resumed already), as the runtime orders its deliveries. -/
def accepted_in_order (resumed : List xpc_connection_t) : List Delivery → Bool
  | [] => true
  | Delivery.new_connection c :: rest => accepted_in_order (c :: resumed) rest
  | Delivery.peer_event c _ :: rest =>
      decide (c ∈ resumed) && accepted_in_order resumed rest

/-! ## Basic facts -/

theorem dispatch_from_eq (trace : List Effect) (ds : List Delivery) :
    dispatch_from trace ds = trace ++ ds.flatMap Delivery.run := by
  induction ds generalizing trace with
  | nil => simp [dispatch_from]
  | cons d ds ih =>
    have h := ih (deliver trace d)
    simp only [dispatch_from, List.foldl_cons] at h ⊢
    rw [h]
    simp [deliver, List.flatMap_cons, List.append_assoc]

theorem dispatch_main_eq (ds : List Delivery) :
    dispatch_main ds = ds.flatMap Delivery.run := by
  simp [dispatch_main, dispatch_from_eq]

theorem dispatch_main_append (ds ds2 : List Delivery) :
    dispatch_main (ds ++ ds2) = dispatch_main ds ++ dispatch_main ds2 := by
  simp [dispatch_main_eq, List.flatMap_append]

theorem handle_events_eq (peer : xpc_connection_t) (events : List xpc_object_t) :
    handle_events peer events = events.flatMap (peer_event_handler peer) := by
  induction events with
  | nil => simp [handle_events, dispatch_main_eq]
  | cons e es ih =>
    simp only [handle_events, dispatch_main_eq] at ih ⊢
    simp [List.flatMap_cons, ih, Delivery.run]

theorem handle_events_nil (peer : xpc_connection_t) : handle_events peer [] = [] := by
  simp [handle_events_eq]

theorem handle_events_cons (peer : xpc_connection_t) (e : xpc_object_t)
    (es : List xpc_object_t) :
    handle_events peer (e :: es) = peer_event_handler peer e ++ handle_events peer es := by
  simp [handle_events_eq, List.flatMap_cons]

theorem handle_events_append (peer : xpc_connection_t) (xs ys : List xpc_object_t) :
    handle_events peer (xs ++ ys) = handle_events peer xs ++ handle_events peer ys := by
  simp [handle_events_eq, List.flatMap_append]

theorem handler_invalid (peer : xpc_connection_t) :
    peer_event_handler peer XPC_ERROR_CONNECTION_INVALID = [closed_notice] := by
  simp [peer_event_handler, closed_notice]

theorem handler_not_dictionary (peer : xpc_connection_t) (event : xpc_object_t)
    (hne : event ≠ XPC_ERROR_CONNECTION_INVALID)
    (hty : xpc_get_type event ≠ XPC_TYPE_DICTIONARY) :
    peer_event_handler peer event = [shape_notice] := by
  simp [peer_event_handler, shape_notice, hne, hty]

theorem handler_dictionary (peer : xpc_connection_t) (event : xpc_object_t)
    (hty : xpc_get_type event = XPC_TYPE_DICTIONARY) :
    peer_event_handler peer event = [Effect.xpc_connection_send_message peer event] := by
  have hne : event ≠ XPC_ERROR_CONNECTION_INVALID := by
    intro h
    rw [h] at hty
    simp [XPC_ERROR_CONNECTION_INVALID, xpc_get_type] at hty
  simp [peer_event_handler, hne, hty]

/-! ## The peer block, one event at a time -/

/-- C1 (echo identity): for every peer `P` and every event `E` that is not the
connection-invalid sentinel and whose type is the dictionary type, the peer block
makes exactly one call, `xpc_connection_send_message(P, E)`, with `E` itself as the
message and `P` as the target; it prints nothing and sends to no other connection. -/
theorem echo_identity (P : xpc_connection_t) (E : xpc_object_t)
    (hne : E ≠ XPC_ERROR_CONNECTION_INVALID)
    (hty : xpc_get_type E = XPC_TYPE_DICTIONARY) :
    peer_event_handler P E = [Effect.xpc_connection_send_message P E] ∧
    (∀ text, Effect.printf text ∉ peer_event_handler P E) ∧
    (∀ Q m, Effect.xpc_connection_send_message Q m ∈ peer_event_handler P E →
      Q = P ∧ m = E) ∧
    (∀ Q, Q ≠ P → sent_to Q (peer_event_handler P E) = []) ∧
    sent_to P (peer_event_handler P E) = [E] := by
  have h : peer_event_handler P E = [Effect.xpc_connection_send_message P E] := by
    simp [peer_event_handler, hne, hty]
  rw [h]
  refine ⟨rfl, ?_, ?_, ?_, ?_⟩
  · intro text
    simp
  · intro Q m hm
    simpa using hm
  · intro Q hQ
    have hPQ : ¬ P = Q := fun e => hQ e.symm
    simp [sent_to, hPQ]
  · simp [sent_to]

theorem echo_identity_witness :
    peer_event_handler ⟨1⟩ (xpc_object_t.dictionary [("text", xpc_object_t.string "hi")]) =
      [Effect.xpc_connection_send_message ⟨1⟩
        (xpc_object_t.dictionary [("text", xpc_object_t.string "hi")])] :=
  (echo_identity ⟨1⟩ (xpc_object_t.dictionary [("text", xpc_object_t.string "hi")])
    (by simp [XPC_ERROR_CONNECTION_INVALID]) (by simp [xpc_get_type])).1

/-- C2 (shape rejection): for every event `E` that is not the connection-invalid
sentinel and whose type is not the dictionary type, the peer block makes exactly one
call, the `printf` of "Didn't receive a dictionary", and no
`xpc_connection_send_message` at all. -/
theorem shape_rejection (P : xpc_connection_t) (E : xpc_object_t)
    (hne : E ≠ XPC_ERROR_CONNECTION_INVALID)
    (hty : xpc_get_type E ≠ XPC_TYPE_DICTIONARY) :
    peer_event_handler P E = [Effect.printf "Didn't receive a dictionary\n"] ∧
    (∀ Q m, Effect.xpc_connection_send_message Q m ∉ peer_event_handler P E) ∧
    (∀ Q, sent_to Q (peer_event_handler P E) = []) := by
  have h : peer_event_handler P E = [Effect.printf "Didn't receive a dictionary\n"] := by
    simp [peer_event_handler, hne, hty]
  rw [h]
  refine ⟨rfl, ?_, ?_⟩
  · intro Q m
    simp
  · intro Q
    simp [sent_to]

theorem shape_rejection_witness :
    peer_event_handler ⟨2⟩ (xpc_object_t.int64 42) =
        [Effect.printf "Didn't receive a dictionary\n"] ∧
      peer_event_handler ⟨2⟩ XPC_ERROR_CONNECTION_INTERRUPTED =
        [Effect.printf "Didn't receive a dictionary\n"] :=
  ⟨(shape_rejection ⟨2⟩ (xpc_object_t.int64 42)
      (by simp [XPC_ERROR_CONNECTION_INVALID]) (by simp [xpc_get_type])).1,
   (shape_rejection ⟨2⟩ XPC_ERROR_CONNECTION_INTERRUPTED
      (by simp [XPC_ERROR_CONNECTION_INVALID, XPC_ERROR_CONNECTION_INTERRUPTED])
      (by simp [XPC_ERROR_CONNECTION_INTERRUPTED, xpc_get_type])).1⟩

/-- C3 (disconnect handling): when the event is the connection-invalid sentinel, the
peer block makes exactly one call, the `printf` of "Connection closed by remote end";
it sends nothing and does not print the shape diagnostic, although the sentinel is
not of the dictionary type. -/
theorem disconnect_handling (P : xpc_connection_t) :
    peer_event_handler P XPC_ERROR_CONNECTION_INVALID =
      [Effect.printf "Connection closed by remote end\n"] ∧
    (∀ Q m, Effect.xpc_connection_send_message Q m ∉
      peer_event_handler P XPC_ERROR_CONNECTION_INVALID) ∧
    Effect.printf "Didn't receive a dictionary\n" ∉
      peer_event_handler P XPC_ERROR_CONNECTION_INVALID ∧
    xpc_get_type XPC_ERROR_CONNECTION_INVALID ≠ XPC_TYPE_DICTIONARY := by
  have h : peer_event_handler P XPC_ERROR_CONNECTION_INVALID =
      [Effect.printf "Connection closed by remote end\n"] := by
    simp [peer_event_handler]
  rw [h]
  refine ⟨rfl, ?_, ?_, ?_⟩
  · intro Q m
    simp
  · simp
  · simp [XPC_ERROR_CONNECTION_INVALID, xpc_get_type]

/-- C8 (outcome trichotomy): every event handed to the peer block has exactly one of
three outcomes, each a single call: the echo of the event (a dictionary), the shape
diagnostic (neither sentinel nor dictionary), or the disconnect notification (the
sentinel).  The three traces are pairwise different and no event yields zero calls or
more than one. -/
theorem outcome_trichotomy (P : xpc_connection_t) (E : xpc_object_t) :
    (peer_event_handler P E).length = 1 ∧
    ((xpc_get_type E = XPC_TYPE_DICTIONARY ∧
        peer_event_handler P E = [Effect.xpc_connection_send_message P E] ∧
        peer_event_handler P E ≠ [shape_notice] ∧
        peer_event_handler P E ≠ [closed_notice]) ∨
     (E ≠ XPC_ERROR_CONNECTION_INVALID ∧ xpc_get_type E ≠ XPC_TYPE_DICTIONARY ∧
        peer_event_handler P E = [shape_notice] ∧
        peer_event_handler P E ≠ [Effect.xpc_connection_send_message P E] ∧
        peer_event_handler P E ≠ [closed_notice]) ∨
     (E = XPC_ERROR_CONNECTION_INVALID ∧
        peer_event_handler P E = [closed_notice] ∧
        peer_event_handler P E ≠ [Effect.xpc_connection_send_message P E] ∧
        peer_event_handler P E ≠ [shape_notice])) ∧
    shape_notice = Effect.printf "Didn't receive a dictionary\n" ∧
    closed_notice = Effect.printf "Connection closed by remote end\n" := by
  by_cases hinv : E = XPC_ERROR_CONNECTION_INVALID
  · have h := handler_invalid P
    subst hinv
    rw [h]
    refine ⟨rfl, Or.inr (Or.inr ⟨rfl, rfl, ?_, ?_⟩), rfl, rfl⟩
    · simp [closed_notice]
    · simp [closed_notice, shape_notice]
  · by_cases hty : xpc_get_type E = XPC_TYPE_DICTIONARY
    · rw [handler_dictionary P E hty]
      refine ⟨rfl, Or.inl ⟨hty, rfl, ?_, ?_⟩, rfl, rfl⟩
      · simp [shape_notice]
      · simp [closed_notice]
    · rw [handler_not_dictionary P E hinv hty]
      refine ⟨rfl, Or.inr (Or.inl ⟨hinv, hty, rfl, ?_, ?_⟩), rfl, rfl⟩
      · simp [shape_notice]
      · simp [closed_notice, shape_notice]

/-! ## Sequences of events on one peer -/

theorem closed_notice_not_mem (peer : xpc_connection_t) (pre : List xpc_object_t)
    (hpre : ∀ e ∈ pre, e ≠ XPC_ERROR_CONNECTION_INVALID) :
    closed_notice ∉ handle_events peer pre := by
  induction pre with
  | nil => simp [handle_events_nil]
  | cons e es ih =>
    have he : e ≠ XPC_ERROR_CONNECTION_INVALID := hpre e (List.mem_cons_self e es)
    have hes : ∀ x ∈ es, x ≠ XPC_ERROR_CONNECTION_INVALID :=
      fun x hx => hpre x (List.mem_cons_of_mem e hx)
    rw [handle_events_cons, List.mem_append]
    rintro (h | h)
    · by_cases hty : xpc_get_type e = XPC_TYPE_DICTIONARY
      · rw [handler_dictionary peer e hty] at h
        simp [closed_notice] at h
      · rw [handler_not_dictionary peer e he hty] at h
        simp [closed_notice, shape_notice] at h
    · exact ih hes h

theorem handler_ne_nil (peer : xpc_connection_t) (e : xpc_object_t) :
    peer_event_handler peer e ≠ [] := by
  unfold peer_event_handler
  split
  · simp
  · split <;> simp

/-- C4, as the program has it: the peer block keeps no closed state, so finality comes
from the runtime delivering nothing after the sentinel.  For events `pre` free of the
sentinel followed by the sentinel, the disconnect notification is printed once and is
the last call of the trace.  Events `post` delivered after the sentinel are handled
as on a fresh connection, and their trace is empty only when there are none. -/
theorem disconnect_finality_by_runtime (peer : xpc_connection_t)
    (pre post : List xpc_object_t)
    (hpre : ∀ e ∈ pre, e ≠ XPC_ERROR_CONNECTION_INVALID) :
    handle_events peer (pre ++ [XPC_ERROR_CONNECTION_INVALID]) =
      handle_events peer pre ++ [Effect.printf "Connection closed by remote end\n"] ∧
    Effect.printf "Connection closed by remote end\n" ∉ handle_events peer pre ∧
    handle_events peer (pre ++ XPC_ERROR_CONNECTION_INVALID :: post) =
      handle_events peer (pre ++ [XPC_ERROR_CONNECTION_INVALID]) ++
        handle_events peer post ∧
    (handle_events peer post = [] ↔ post = []) := by
  refine ⟨?_, closed_notice_not_mem peer pre hpre, ?_, ?_⟩
  · rw [handle_events_append, handle_events_cons, handle_events_nil, handler_invalid]
    rfl
  · rw [← handle_events_append]
    simp
  · constructor
    · intro h
      cases post with
      | nil => rfl
      | cons e es =>
        rw [handle_events_cons] at h
        exact absurd (List.append_eq_nil.mp h).1 (handler_ne_nil peer e)
    · intro h
      rw [h, handle_events_nil]

theorem disconnect_finality_by_runtime_witness :
    handle_events ⟨1⟩ ([xpc_object_t.dictionary [("n", xpc_object_t.int64 1)]] ++
        [XPC_ERROR_CONNECTION_INVALID]) =
      handle_events ⟨1⟩ [xpc_object_t.dictionary [("n", xpc_object_t.int64 1)]] ++
        [Effect.printf "Connection closed by remote end\n"] :=
  (disconnect_finality_by_runtime ⟨1⟩
    [xpc_object_t.dictionary [("n", xpc_object_t.int64 1)]] []
    (by simp [XPC_ERROR_CONNECTION_INVALID])).1

/-- C4 as stated fails: an event delivered after the sentinel still has effects.  On
connection 1, a dictionary that follows the sentinel is echoed and a second sentinel
prints the notification again. -/
theorem disconnect_finality_counterexample :
    handle_events ⟨1⟩ [XPC_ERROR_CONNECTION_INVALID, xpc_object_t.dictionary []] =
      [Effect.printf "Connection closed by remote end\n",
       Effect.xpc_connection_send_message ⟨1⟩ (xpc_object_t.dictionary [])] ∧
    handle_events ⟨1⟩ [XPC_ERROR_CONNECTION_INVALID, XPC_ERROR_CONNECTION_INVALID] =
      [Effect.printf "Connection closed by remote end\n",
       Effect.printf "Connection closed by remote end\n"] ∧
    ¬ (∀ later : xpc_object_t,
        handle_events ⟨1⟩ [XPC_ERROR_CONNECTION_INVALID, later] =
          handle_events ⟨1⟩ [XPC_ERROR_CONNECTION_INVALID]) := by
  refine ⟨?_, ?_, ?_⟩
  · simp [handle_events_eq, peer_event_handler, XPC_ERROR_CONNECTION_INVALID, xpc_get_type]
  · simp [handle_events_eq, peer_event_handler]
  · intro h
    have h1 := h (xpc_object_t.dictionary [])
    simp [handle_events_eq, peer_event_handler, XPC_ERROR_CONNECTION_INVALID,
      xpc_get_type] at h1

/-- C7 (a malformed message is not fatal): for every event `X` that is neither the
sentinel nor a dictionary and every dictionary `M`, delivering `X` then `M` on one
peer prints the diagnostic and then echoes `M` on that peer; whatever follows `X` is
handled as if `X` had never arrived. -/
theorem malformed_message_non_fatal (P : xpc_connection_t) (X M : xpc_object_t)
    (hXne : X ≠ XPC_ERROR_CONNECTION_INVALID)
    (hXty : xpc_get_type X ≠ XPC_TYPE_DICTIONARY)
    (hM : xpc_get_type M = XPC_TYPE_DICTIONARY) :
    handle_events P [X, M] =
      [Effect.printf "Didn't receive a dictionary\n",
       Effect.xpc_connection_send_message P M] ∧
    sent_to P (handle_events P [X, M]) = [M] ∧
    handle_events P [X, M] = handle_events P [X] ++ handle_events P [M] ∧
    handle_events P [M] = [Effect.xpc_connection_send_message P M] ∧
    (∀ later, handle_events P (X :: later) =
      Effect.printf "Didn't receive a dictionary\n" :: handle_events P later) := by
  have hX := handler_not_dictionary P X hXne hXty
  have hMd := handler_dictionary P M hM
  have h2 : handle_events P [X, M] =
      [Effect.printf "Didn't receive a dictionary\n",
       Effect.xpc_connection_send_message P M] := by
    rw [handle_events_cons, handle_events_cons, handle_events_nil, hX, hMd]
    rfl
  refine ⟨h2, ?_, ?_, ?_, ?_⟩
  · rw [h2]
    simp [sent_to]
  · rw [← handle_events_append]
    rfl
  · rw [handle_events_cons, handle_events_nil, hMd]
    rfl
  · intro later
    rw [handle_events_cons, hX]
    rfl

theorem malformed_message_non_fatal_witness :
    handle_events ⟨2⟩ [xpc_object_t.int64 42,
        xpc_object_t.dictionary [("text", xpc_object_t.string "hi")]] =
      [Effect.printf "Didn't receive a dictionary\n",
       Effect.xpc_connection_send_message ⟨2⟩
         (xpc_object_t.dictionary [("text", xpc_object_t.string "hi")])] :=
  (malformed_message_non_fatal ⟨2⟩ (xpc_object_t.int64 42)
    (xpc_object_t.dictionary [("text", xpc_object_t.string "hi")])
    (by simp [XPC_ERROR_CONNECTION_INVALID]) (by simp [xpc_get_type])
    (by simp [xpc_get_type])).1

/-- C10 (effects follow arrival order): for every dictionary `M`, the events
`M` then sentinel on one peer give the trace echo of `M`, then disconnect
notification, and nothing after it; in general the trace of a peer is the in-order
concatenation of the calls made for each event. -/
theorem effects_follow_arrival_order (peer : xpc_connection_t) (M : xpc_object_t)
    (hM : xpc_get_type M = XPC_TYPE_DICTIONARY) :
    handle_events peer [M, XPC_ERROR_CONNECTION_INVALID] =
      [Effect.xpc_connection_send_message peer M,
       Effect.printf "Connection closed by remote end\n"] ∧
    (∀ events : List xpc_object_t,
      handle_events peer events = (events.map (peer_event_handler peer)).flatten) := by
  constructor
  · rw [handle_events_cons, handle_events_cons, handle_events_nil,
      handler_dictionary peer M hM, handler_invalid]
    rfl
  · intro events
    rw [handle_events_eq, List.flatMap]

theorem effects_follow_arrival_order_witness :
    handle_events ⟨1⟩ [xpc_object_t.dictionary [("n", xpc_object_t.int64 1)],
        XPC_ERROR_CONNECTION_INVALID] =
      [Effect.xpc_connection_send_message ⟨1⟩
         (xpc_object_t.dictionary [("n", xpc_object_t.int64 1)]),
       Effect.printf "Connection closed by remote end\n"] :=
  (effects_follow_arrival_order ⟨1⟩
    (xpc_object_t.dictionary [("n", xpc_object_t.int64 1)])
    (by simp [xpc_get_type])).1

/-! ## Several peers -/

theorem sent_to_append (P : xpc_connection_t) (a b : List Effect) :
    sent_to P (a ++ b) = sent_to P a ++ sent_to P b := by
  induction a with
  | nil => simp [sent_to]
  | cons x xs ih =>
    cases x with
    | printf text => simpa [sent_to] using ih
    | xpc_connection_send_message c m =>
      by_cases hc : c = P <;> simp [sent_to, hc, ih]
    | xpc_connection_set_event_handler c h => simpa [sent_to] using ih
    | xpc_connection_resume c => simpa [sent_to] using ih

theorem sent_to_handler_same (P : xpc_connection_t) (e : xpc_object_t) :
    sent_to P (peer_event_handler P e) = dictionaries [e] := by
  by_cases hty : xpc_get_type e = XPC_TYPE_DICTIONARY
  · rw [handler_dictionary P e hty]
    simp [sent_to, dictionaries, hty]
  · by_cases hinv : e = XPC_ERROR_CONNECTION_INVALID
    · subst hinv
      rw [handler_invalid]
      simp [sent_to, dictionaries, closed_notice, hty]
    · rw [handler_not_dictionary P e hinv hty]
      simp [sent_to, dictionaries, shape_notice, hty]

theorem sent_to_handler_other (P c : xpc_connection_t) (e : xpc_object_t) (hc : c ≠ P) :
    sent_to P (peer_event_handler c e) = [] := by
  unfold peer_event_handler
  split
  · simp [sent_to]
  · split <;> simp [sent_to, hc]

theorem sent_to_dispatch_main (P : xpc_connection_t) (ds : List Delivery) :
    sent_to P (dispatch_main ds) = dictionaries (received_from P ds) := by
  induction ds with
  | nil => simp [dispatch_main_eq, sent_to, received_from, dictionaries]
  | cons d ds ih =>
    have hsplit : dispatch_main (d :: ds) = d.run ++ dispatch_main ds := by
      simp [dispatch_main_eq, List.flatMap_cons]
    rw [hsplit, sent_to_append, ih]
    cases d with
    | new_connection c =>
      simp [Delivery.run, listener_event_handler, sent_to, received_from]
    | peer_event c e =>
      by_cases hc : c = P
      · subst hc
        simp only [Delivery.run, received_from, if_true]
        rw [sent_to_handler_same]
        by_cases hty : xpc_get_type e = XPC_TYPE_DICTIONARY <;>
          simp [dictionaries, List.filter_cons, hty]
      · simp only [Delivery.run, received_from, hc, if_false]
        rw [sent_to_handler_other P c e hc]
        simp

theorem received_from_own (P : xpc_connection_t) (events : List xpc_object_t) :
    received_from P (events.map (Delivery.peer_event P)) = events := by
  induction events with
  | nil => rfl
  | cons e es ih => simp [received_from, ih]

/-! ## The runtime binds each connection to its own block -/

theorem perform_all_handler (rt : Runtime) (Q : xpc_connection_t) (e : xpc_object_t) :
    rt.perform_all (peer_event_handler Q e) =
      Runtime.mk rt.handlers rt.resumed (rt.trace ++ peer_event_handler Q e) := by
  unfold peer_event_handler
  split
  · rfl
  · split <;> rfl

theorem step_new_connection (rt : Runtime) (c : xpc_connection_t) :
    rt.step (Delivery.new_connection c) =
      Runtime.mk ((c, peer_event_handler c) :: rt.handlers) (c :: rt.resumed)
        (rt.trace ++ listener_event_handler c) := by
  simp [Runtime.step, Runtime.perform_all, Runtime.perform, listener_event_handler]

theorem step_event_resumed (rt : Runtime) (c : xpc_connection_t) (e : xpc_object_t)
    (hr : c ∈ rt.resumed) (hh : rt.handler_of c = some (peer_event_handler c)) :
    rt.step (Delivery.peer_event c e) =
      Runtime.mk rt.handlers rt.resumed (rt.trace ++ peer_event_handler c e) := by
  simp only [Runtime.step, hr, if_true, hh]
  exact perform_all_handler rt c e

theorem step_event_suspended (rt : Runtime) (c : xpc_connection_t) (e : xpc_object_t)
    (hr : c ∉ rt.resumed) :
    rt.step (Delivery.peer_event c e) = rt := by
  simp [Runtime.step, hr]

theorem run_from_cons (rt : Runtime) (d : Delivery) (ds : List Delivery) :
    rt.run_from (d :: ds) = (rt.step d).run_from ds := by
  simp [Runtime.run_from]

theorem run_from_append (rt : Runtime) (ds ds2 : List Delivery) :
    rt.run_from (ds ++ ds2) = (rt.run_from ds).run_from ds2 := by
  simp [Runtime.run_from, List.foldl_append]

/-- What a run of the runtime amounts to, from any state in which every installed
block is the peer block of its own connection and every resumed connection has one:
the trace grows by the calls of the blocks reached by the deliverable arrivals, the
two properties of the state persist, resumed connections stay resumed, and every
connection that arrived is resumed. -/
theorem run_from_spec (ds : List Delivery) :
    ∀ rt : Runtime,
      (∀ Q h, rt.handler_of Q = some h → h = peer_event_handler Q) →
      (∀ Q, Q ∈ rt.resumed → rt.handler_of Q = some (peer_event_handler Q)) →
      (rt.run_from ds).trace =
          rt.trace ++ (deliverable rt.resumed ds).flatMap Delivery.run ∧
        (∀ Q h, (rt.run_from ds).handler_of Q = some h → h = peer_event_handler Q) ∧
        (∀ Q, Q ∈ (rt.run_from ds).resumed →
          (rt.run_from ds).handler_of Q = some (peer_event_handler Q)) ∧
        (∀ Q, Q ∈ rt.resumed → Q ∈ (rt.run_from ds).resumed) ∧
        (∀ Q, Delivery.new_connection Q ∈ ds → Q ∈ (rt.run_from ds).resumed) := by
  induction ds with
  | nil =>
    intro rt h1 h2
    refine ⟨by simp [Runtime.run_from, deliverable], ?_, ?_, ?_, ?_⟩
    · simpa [Runtime.run_from] using h1
    · simpa [Runtime.run_from] using h2
    · intro Q hQ
      simpa [Runtime.run_from] using hQ
    · intro Q hQ
      simp at hQ
  | cons d ds ih =>
    intro rt h1 h2
    rw [run_from_cons]
    cases d with
    | new_connection c =>
      have hstep := step_new_connection rt c
      have g1 : ∀ Q h, (rt.step (Delivery.new_connection c)).handler_of Q = some h →
          h = peer_event_handler Q := by
        intro Q h hq
        rw [hstep] at hq
        simp only [Runtime.handler_of, lookup_handler] at hq
        by_cases hc : c = Q
        · subst hc
          simp at hq
          exact hq.symm
        · simp only [hc, if_false] at hq
          exact h1 Q h hq
      have g2 : ∀ Q, Q ∈ (rt.step (Delivery.new_connection c)).resumed →
          (rt.step (Delivery.new_connection c)).handler_of Q =
            some (peer_event_handler Q) := by
        intro Q hQ
        rw [hstep] at hQ ⊢
        simp only [Runtime.handler_of, lookup_handler]
        by_cases hc : c = Q
        · subst hc
          simp
        · simp only [hc, if_false]
          have hQ2 : Q ∈ rt.resumed := by
            rcases List.mem_cons.mp hQ with h | h
            · exact absurd h.symm hc
            · exact h
          exact h2 Q hQ2
      obtain ⟨t, i1, i2, i3, i4⟩ := ih (rt.step (Delivery.new_connection c)) g1 g2
      refine ⟨?_, i1, i2, ?_, ?_⟩
      · rw [t, hstep]
        simp [deliverable, List.flatMap_cons, Delivery.run, List.append_assoc]
      · intro Q hQ
        apply i3
        rw [hstep]
        exact List.mem_cons_of_mem c hQ
      · intro Q hQ
        rcases List.mem_cons.mp hQ with h | h
        · apply i3
          rw [hstep]
          have hQc : Q = c := by
            injection h
          rw [hQc]
          exact List.mem_cons_self c rt.resumed
        · exact i4 Q h
    | peer_event c e =>
      by_cases hr : c ∈ rt.resumed
      · have hstep := step_event_resumed rt c e hr (h2 c hr)
        have g1 : ∀ Q h, (rt.step (Delivery.peer_event c e)).handler_of Q = some h →
            h = peer_event_handler Q := by
          intro Q h hq
          rw [hstep] at hq
          exact h1 Q h hq
        have g2 : ∀ Q, Q ∈ (rt.step (Delivery.peer_event c e)).resumed →
            (rt.step (Delivery.peer_event c e)).handler_of Q =
              some (peer_event_handler Q) := by
          intro Q hQ
          rw [hstep] at hQ ⊢
          exact h2 Q hQ
        obtain ⟨t, i1, i2, i3, i4⟩ := ih (rt.step (Delivery.peer_event c e)) g1 g2
        refine ⟨?_, i1, i2, ?_, ?_⟩
        · rw [t, hstep]
          simp [deliverable, hr, List.flatMap_cons, Delivery.run, List.append_assoc]
        · intro Q hQ
          apply i3
          rw [hstep]
          exact hQ
        · intro Q hQ
          rcases List.mem_cons.mp hQ with h | h
          · cases h
          · exact i4 Q h
      · have hstep := step_event_suspended rt c e hr
        rw [hstep]
        obtain ⟨t, i1, i2, i3, i4⟩ := ih rt h1 h2
        refine ⟨?_, i1, i2, i3, ?_⟩
        · rw [t]
          simp [deliverable, hr]
        · intro Q hQ
          rcases List.mem_cons.mp hQ with h | h
          · cases h
          · exact i4 Q h

theorem start_handler_of (Q : xpc_connection_t) : Runtime.start.handler_of Q = none := rfl

theorem system_run_spec (ds : List Delivery) :
    (system_run ds).trace = dispatch_main (deliverable [] ds) ∧
      (∀ Q h, (system_run ds).handler_of Q = some h → h = peer_event_handler Q) ∧
      (∀ Q, Q ∈ (system_run ds).resumed →
        (system_run ds).handler_of Q = some (peer_event_handler Q)) ∧
      (∀ Q, Delivery.new_connection Q ∈ ds → Q ∈ (system_run ds).resumed) := by
  have h1 : ∀ Q h, Runtime.start.handler_of Q = some h → h = peer_event_handler Q := by
    intro Q h hq
    rw [start_handler_of] at hq
    cases hq
  have h2 : ∀ Q, Q ∈ Runtime.start.resumed →
      Runtime.start.handler_of Q = some (peer_event_handler Q) := by
    intro Q hQ
    simp [Runtime.start] at hQ
  obtain ⟨t, i1, i2, _, i4⟩ := run_from_spec ds Runtime.start h1 h2
  refine ⟨?_, i1, i2, i4⟩
  rw [system_run, t, dispatch_main_eq]
  simp [Runtime.start]

theorem deliverable_of_in_order (ds : List Delivery) :
    ∀ resumed : List xpc_connection_t,
      accepted_in_order resumed ds = true → deliverable resumed ds = ds := by
  induction ds with
  | nil => intro resumed _; rfl
  | cons d ds ih =>
    intro resumed h
    cases d with
    | new_connection c =>
      simp only [accepted_in_order] at h
      simp [deliverable, ih (c :: resumed) h]
    | peer_event c e =>
      simp only [accepted_in_order, Bool.and_eq_true, decide_eq_true_eq] at h
      simp [deliverable, h.1, ih resumed h.2]

theorem deliverable_own_events (P : xpc_connection_t) (resumed : List xpc_connection_t)
    (hP : P ∈ resumed) (events : List xpc_object_t) :
    deliverable resumed (events.map (Delivery.peer_event P)) =
      events.map (Delivery.peer_event P) := by
  induction events with
  | nil => rfl
  | cons e es ih => simp [deliverable, hP, ih]

theorem run_from_own_events (P : xpc_connection_t) (events : List xpc_object_t) :
    ∀ rt : Runtime, P ∈ rt.resumed → rt.handler_of P = some (peer_event_handler P) →
      rt.run_from (events.map (Delivery.peer_event P)) =
        Runtime.mk rt.handlers rt.resumed (rt.trace ++ handle_events P events) := by
  induction events with
  | nil =>
    intro rt _ _
    simp [Runtime.run_from, handle_events_nil]
  | cons e es ih =>
    intro rt hr hh
    rw [List.map_cons, run_from_cons, step_event_resumed rt P e hr hh]
    rw [ih (Runtime.mk rt.handlers rt.resumed (rt.trace ++ peer_event_handler P e)) hr hh]
    simp [handle_events_cons, List.append_assoc]

/-- C5 (peer isolation): the listener block binds every accepted connection to the
peer block that captured it, and that block sends only to its own connection.  Hence
in every run of the system, whatever the interleaving of arrivals of any
connections, the messages sent to `P` are exactly the dictionaries delivered on `P`,
in arrival order; when each connection is accepted before its events arrive these
are the dictionaries received from `P`.  Removing every arrival of the other
connections leaves the messages sent to `P` unchanged, and two runs that deliver the
same events on `P` send the same messages to `P`. -/
theorem peer_isolation (P : xpc_connection_t) :
    (∀ (event : xpc_object_t) (Q : xpc_connection_t) (m : xpc_object_t),
      Effect.xpc_connection_send_message Q m ∈ peer_event_handler P event →
        Q = P ∧ m = event) ∧
    (∀ (ds : List Delivery) (Q : xpc_connection_t) (h : xpc_object_t → List Effect),
      (system_run ds).handler_of Q = some h → h = peer_event_handler Q) ∧
    (∀ ds : List Delivery, Delivery.new_connection P ∈ ds →
      P ∈ (system_run ds).resumed ∧
        (system_run ds).handler_of P = some (peer_event_handler P)) ∧
    (∀ ds : List Delivery,
      sent_to P (system_run ds).trace =
        dictionaries (received_from P (deliverable [] ds))) ∧
    (∀ ds : List Delivery, accepted_in_order [] ds = true →
      sent_to P (system_run ds).trace = dictionaries (received_from P ds)) ∧
    (∀ ds : List Delivery, accepted_in_order [] ds = true →
      sent_to P (system_run ds).trace =
        sent_to P (system_run (Delivery.new_connection P ::
          (received_from P ds).map (Delivery.peer_event P))).trace) ∧
    (∀ ds ds2 : List Delivery,
      received_from P (deliverable [] ds) = received_from P (deliverable [] ds2) →
        sent_to P (system_run ds).trace = sent_to P (system_run ds2).trace) := by
  have hsent : ∀ ds : List Delivery,
      sent_to P (system_run ds).trace =
        dictionaries (received_from P (deliverable [] ds)) := by
    intro ds
    rw [(system_run_spec ds).1, sent_to_dispatch_main]
  have horder : ∀ ds : List Delivery, accepted_in_order [] ds = true →
      sent_to P (system_run ds).trace = dictionaries (received_from P ds) := by
    intro ds h
    rw [hsent, deliverable_of_in_order ds [] h]
  refine ⟨?_, ?_, ?_, hsent, horder, ?_, ?_⟩
  · intro event Q m hmem
    unfold peer_event_handler at hmem
    split at hmem
    · simp at hmem
    · split at hmem
      · simp at hmem
      · simpa using hmem
  · intro ds
    exact (system_run_spec ds).2.1
  · intro ds hP
    have hr := (system_run_spec ds).2.2.2 P hP
    exact ⟨hr, (system_run_spec ds).2.2.1 P hr⟩
  · intro ds h
    have hown : system_run (Delivery.new_connection P ::
        (received_from P ds).map (Delivery.peer_event P)) =
        (Runtime.start.step (Delivery.new_connection P)).run_from
          ((received_from P ds).map (Delivery.peer_event P)) := by
      rw [system_run, run_from_cons]
    rw [horder ds h, hown, step_new_connection,
      run_from_own_events P (received_from P ds) _ (List.mem_cons_self P _)
        (by simp [Runtime.handler_of, lookup_handler])]
    simp only [sent_to_append]
    have hs : sent_to P (handle_events P (received_from P ds)) =
        dictionaries (received_from P ds) := by
      rw [handle_events, sent_to_dispatch_main, received_from_own]
    rw [hs]
    simp [Runtime.start, listener_event_handler, sent_to]
  · intro ds ds2 h
    rw [hsent, hsent, h]

theorem peer_isolation_witness :
    sent_to ⟨1⟩ (system_run
        [Delivery.new_connection ⟨1⟩,
         Delivery.new_connection ⟨2⟩,
         Delivery.peer_event ⟨1⟩ (xpc_object_t.dictionary [("id", xpc_object_t.string "A")]),
         Delivery.peer_event ⟨2⟩ (xpc_object_t.dictionary [("id", xpc_object_t.string "B")]),
         Delivery.peer_event ⟨2⟩ (xpc_object_t.int64 42)]).trace =
      [xpc_object_t.dictionary [("id", xpc_object_t.string "A")]] ∧
    sent_to ⟨2⟩ (system_run
        [Delivery.new_connection ⟨1⟩,
         Delivery.new_connection ⟨2⟩,
         Delivery.peer_event ⟨1⟩ (xpc_object_t.dictionary [("id", xpc_object_t.string "A")]),
         Delivery.peer_event ⟨2⟩ (xpc_object_t.dictionary [("id", xpc_object_t.string "B")]),
         Delivery.peer_event ⟨2⟩ (xpc_object_t.int64 42)]).trace =
      [xpc_object_t.dictionary [("id", xpc_object_t.string "B")]] :=
  ⟨(peer_isolation ⟨1⟩).2.2.2.2.1 _ (by rfl), (peer_isolation ⟨2⟩).2.2.2.2.1 _ (by rfl)⟩

/-- C9 (no state retained across messages): once `peer` has been accepted, whatever
arrived earlier in the run (other connections, earlier events on `peer`, the sentinel
included), the calls made for the next event on `peer` are a function of `peer` and
that event alone, the three-way test of the peer block; handling events changes
neither the installed blocks nor the resumed connections; hence the trace of
`xs ++ ys` on `peer` is the trace of `xs` followed by the trace of `ys` handled from
the state right after acceptance. -/
theorem no_retained_state (peer : xpc_connection_t) (ds : List Delivery)
    (hacc : Delivery.new_connection peer ∈ ds) :
    (∀ event : xpc_object_t,
      (system_run (ds ++ [Delivery.peer_event peer event])).trace =
        (system_run ds).trace ++
          (if event = XPC_ERROR_CONNECTION_INVALID then
            [Effect.printf "Connection closed by remote end\n"]
          else if xpc_get_type event ≠ XPC_TYPE_DICTIONARY then
            [Effect.printf "Didn't receive a dictionary\n"]
          else
            [Effect.xpc_connection_send_message peer event])) ∧
    (∀ events : List xpc_object_t,
      (system_run (ds ++ events.map (Delivery.peer_event peer))).handlers =
          (system_run ds).handlers ∧
        (system_run (ds ++ events.map (Delivery.peer_event peer))).resumed =
          (system_run ds).resumed) ∧
    (∀ xs ys : List xpc_object_t,
      (system_run (ds ++ (xs ++ ys).map (Delivery.peer_event peer))).trace =
        (system_run ds).trace ++ (handle_events peer xs ++ handle_events peer ys)) ∧
    (∀ events : List xpc_object_t,
      (system_run (Delivery.new_connection peer ::
          events.map (Delivery.peer_event peer))).trace =
        listener_event_handler peer ++ handle_events peer events) ∧
    (∀ xs ys : List xpc_object_t,
      handle_events peer (xs ++ ys) = handle_events peer xs ++ handle_events peer ys) := by
  have hr : peer ∈ (system_run ds).resumed := (system_run_spec ds).2.2.2 peer hacc
  have hh : (system_run ds).handler_of peer = some (peer_event_handler peer) :=
    (system_run_spec ds).2.2.1 peer hr
  have hrun : ∀ events : List xpc_object_t,
      system_run (ds ++ events.map (Delivery.peer_event peer)) =
        Runtime.mk (system_run ds).handlers (system_run ds).resumed
          ((system_run ds).trace ++ handle_events peer events) := by
    intro events
    have hsplit : system_run (ds ++ events.map (Delivery.peer_event peer)) =
        (system_run ds).run_from (events.map (Delivery.peer_event peer)) := by
      rw [system_run, run_from_append]
      rfl
    rw [hsplit, run_from_own_events peer events (system_run ds) hr hh]
  refine ⟨?_, ?_, ?_, ?_, handle_events_append peer⟩
  · intro event
    have h1 := hrun [event]
    rw [List.map_cons, List.map_nil] at h1
    rw [h1, handle_events_cons, handle_events_nil, List.append_nil]
    rfl
  · intro events
    rw [hrun events]
    exact ⟨rfl, rfl⟩
  · intro xs ys
    rw [hrun (xs ++ ys), handle_events_append]
  · intro events
    have hown : system_run (Delivery.new_connection peer ::
        events.map (Delivery.peer_event peer)) =
        (Runtime.start.step (Delivery.new_connection peer)).run_from
          (events.map (Delivery.peer_event peer)) := by
      rw [system_run, run_from_cons]
    rw [hown, step_new_connection,
      run_from_own_events peer events _ (List.mem_cons_self peer _)
        (by simp [Runtime.handler_of, lookup_handler])]
    simp [Runtime.start]

theorem no_retained_state_witness :
    (system_run ([Delivery.new_connection ⟨1⟩,
          Delivery.peer_event ⟨1⟩ XPC_ERROR_CONNECTION_INVALID] ++
        [Delivery.peer_event ⟨1⟩ (xpc_object_t.dictionary [])])).trace =
      (system_run [Delivery.new_connection ⟨1⟩,
          Delivery.peer_event ⟨1⟩ XPC_ERROR_CONNECTION_INVALID]).trace ++
        [Effect.xpc_connection_send_message ⟨1⟩ (xpc_object_t.dictionary [])] :=
  (no_retained_state ⟨1⟩
    [Delivery.new_connection ⟨1⟩, Delivery.peer_event ⟨1⟩ XPC_ERROR_CONNECTION_INVALID]
    (by simp)).1 (xpc_object_t.dictionary [])

/-! ## The listener block -/

/-- C6 (listener contract): for every accepted connection the listener block makes
exactly two calls, in this order: it installs on that connection the peer block that
captured it, then resumes that connection once.  It prints nothing, sends nothing,
names no other connection, and does the same whatever was delivered before. -/
theorem listener_contract (peer : xpc_connection_t) :
    listener_event_handler peer =
      [Effect.xpc_connection_set_event_handler peer (peer_event_handler peer),
       Effect.xpc_connection_resume peer] ∧
    (listener_event_handler peer).length = 2 ∧
    (∀ text, Effect.printf text ∉ listener_event_handler peer) ∧
    (∀ Q m, Effect.xpc_connection_send_message Q m ∉ listener_event_handler peer) ∧
    (∀ Q h, Effect.xpc_connection_set_event_handler Q h ∈ listener_event_handler peer →
      Q = peer ∧ h = peer_event_handler peer) ∧
    (∀ Q, Effect.xpc_connection_resume Q ∈ listener_event_handler peer → Q = peer) ∧
    (∀ earlier : List Delivery,
      dispatch_main (earlier ++ [Delivery.new_connection peer]) =
        dispatch_main earlier ++ listener_event_handler peer) ∧
    (∀ peers : List xpc_connection_t,
      accept_peers peers = peers.flatMap listener_event_handler) := by
  refine ⟨rfl, rfl, ?_, ?_, ?_, ?_, ?_, ?_⟩
  · intro text
    simp [listener_event_handler]
  · intro Q m
    simp [listener_event_handler]
  · intro Q h hmem
    simpa [listener_event_handler] using hmem
  · intro Q hmem
    simpa [listener_event_handler] using hmem
  · intro earlier
    rw [dispatch_main_append]
    simp [dispatch_main_eq, Delivery.run]
  · intro peers
    rw [accept_peers, dispatch_main_eq]
    induction peers with
    | nil => rfl
    | cons q qs ih => simp [List.flatMap_cons, Delivery.run, ih]

end EchoServer
